import Mathlib

/-!
Verification of the check-updates monitoring probe.

This file shallowly embeds the probe's pure logic — the cron-like schedule
evaluator, the lock-file timestamp store, the PackageKit phase aggregation,
the Nagios output formatting and the orchestrator's decisions — as Lean
definitions translated from the Rust source, and proves properties of the
specification against them.

Strings are modelled as `List Char`; machine integers (`i32`, `i64`,
`usize`) as `Int`/`Nat` with explicit range checks where the source checks
them.
-/

namespace CheckUpdates

/-! String utilities

Models of the Rust standard-library string operations the probe uses:
decimal formatting (`Display` for integers), `str::parse` for integers,
`split_whitespace`, `trim`, `split(';')` and substring `contains`.
-/

/-- Model of `char::is_whitespace` (Unicode White_Space), by code point. -/
def isWsChar (c : Char) : Bool :=
  c.toNat = 32 || c.toNat = 9 || c.toNat = 10 || c.toNat = 11 || c.toNat = 12 ||
  c.toNat = 13 || c.toNat = 133 || c.toNat = 160 || c.toNat = 5760 ||
  (8192 ≤ c.toNat && c.toNat ≤ 8202) || c.toNat = 8232 || c.toNat = 8233 ||
  c.toNat = 8239 || c.toNat = 8287 || c.toNat = 12288

/-- The decimal digit character for `d < 10`. -/
def digitChar (d : Nat) : Char := Char.ofNat (48 + d)

/-- Decimal digits of `n`, least significant first.  `fuel` bounds the
recursion depth; any `fuel > n` is enough. -/
def natDigitsRev : Nat → Nat → List Char
  | 0, _ => []
  | fuel + 1, n =>
    if n < 10 then [digitChar n]
    else digitChar (n % 10) :: natDigitsRev fuel (n / 10)

/-- Decimal rendering of a natural number, most significant digit first
(the digit layout of Rust's integer `Display`). -/
def natToChars (n : Nat) : List Char := (natDigitsRev (n + 1) n).reverse

/-- Rust `Display` for a signed integer: minus sign then decimal digits. -/
def intToChars (n : Int) : List Char :=
  if n < 0 then '-' :: natToChars n.natAbs else natToChars n.toNat

/-- Value of a decimal digit character, `none` for a non-digit. -/
def digitVal? (c : Char) : Option Nat :=
  if 48 ≤ c.toNat ∧ c.toNat ≤ 57 then some (c.toNat - 48) else none

/-- Accumulating decimal parse over a character list; fails on the first
non-digit. -/
def parseNatAux : List Char → Nat → Option Nat
  | [], acc => some acc
  | c :: rest, acc =>
    match digitVal? c with
    | none => none
    | some d => parseNatAux rest (acc * 10 + d)

/-- Parse of a non-empty all-digit string as a natural number. -/
def parseNatChars (cs : List Char) : Option Nat :=
  if cs = [] then none else parseNatAux cs 0

/-- Rust `str::parse::<i32>`: optional sign, decimal digits, range check. -/
def parseI32 (cs : List Char) : Option Int :=
  if cs.head? = some '-' then
    (parseNatChars cs.tail).bind fun n =>
      if n ≤ 2 ^ 31 then some (-(n : Int)) else none
  else if cs.head? = some '+' then
    (parseNatChars cs.tail).bind fun n =>
      if n < 2 ^ 31 then some ((n : Int)) else none
  else
    (parseNatChars cs).bind fun n =>
      if n < 2 ^ 31 then some ((n : Int)) else none

/-- Rust `str::parse::<i64>`: optional sign, decimal digits, range check. -/
def parseI64 (cs : List Char) : Option Int :=
  if cs.head? = some '-' then
    (parseNatChars cs.tail).bind fun n =>
      if n ≤ 2 ^ 63 then some (-(n : Int)) else none
  else if cs.head? = some '+' then
    (parseNatChars cs.tail).bind fun n =>
      if n < 2 ^ 63 then some ((n : Int)) else none
  else
    (parseNatChars cs).bind fun n =>
      if n < 2 ^ 63 then some ((n : Int)) else none

/-- Model of `str::split_whitespace`: maximal runs of non-whitespace characters.
The accumulator holds the current word reversed. -/
def splitWsAux : List Char → List Char → List (List Char)
  | [], acc => if acc = [] then [] else [acc.reverse]
  | c :: rest, acc =>
    if isWsChar c then
      if acc = [] then splitWsAux rest []
      else acc.reverse :: splitWsAux rest []
    else splitWsAux rest (c :: acc)

def splitWs (cs : List Char) : List (List Char) := splitWsAux cs []

/-- Model of `str::trim`: drop leading and trailing whitespace. -/
def trimChars (cs : List Char) : List Char :=
  ((cs.dropWhile isWsChar).reverse.dropWhile isWsChar).reverse

/-- Model of `str::split(';')`: always yields at least one (possibly empty) field. -/
def splitSemi : List Char → List (List Char)
  | [] => [[]]
  | c :: rest =>
    if c = ';' then [] :: splitSemi rest
    else
      match splitSemi rest with
      | [] => [[c]]
      | h :: t => (c :: h) :: t

/-- Rust `str::contains` for a string pattern: some suffix of the haystack
starts with the needle. -/
def containsSub (hay needle : List Char) : Bool :=
  needle.isPrefixOf hay ||
    match hay with
    | [] => false
    | _ :: t => containsSub t needle

/-! Schedule evaluator (src/cron.rs) -/

/-- Type `CronField`: one field of the 4-field schedule spec. -/
inductive CronField
  | Any
  | Value (v : Int)
  | Step (s : Int)
deriving DecidableEq

/-- Type `CronSpec`: minute, hour, day-of-month, month. -/
structure CronSpec where
  minute : CronField
  hour : CronField
  day : CronField
  month : CronField
deriving DecidableEq

/-- Function `CronField::fix`: floor the current unit value according to the field
kind.  Rust `%` on `i32` is truncated remainder, hence `Int.tmod`. -/
def CronField.fix (f : CronField) (value : Int) : Int :=
  match f with
  | .Any => value
  | .Value v => v
  | .Step step => value - Int.tmod value step

/-- Calendar datetime at second precision, standing in for
`chrono::DateTime<Local>` (one fixed timezone, no DST). -/
structure DT where
  year : Int
  month : Int
  day : Int
  hour : Int
  minute : Int
  second : Int
deriving DecidableEq

/-- Proleptic-Gregorian leap year. -/
def isLeap (y : Int) : Bool :=
  (y % 4 = 0 && y % 100 ≠ 0) || y % 400 = 0

/-- Number of days of month `m` of year `y` (months counted 1–12). -/
def daysInMonth (y m : Int) : Int :=
  if m = 2 then (if isLeap y then 29 else 28)
  else if m = 4 || m = 6 || m = 9 || m = 11 then 30
  else 31

/-- A datetime whose fields are a real calendar date and time of day. -/
def validDT (d : DT) : Bool :=
  decide (1 ≤ d.month) && decide (d.month ≤ 12) &&
  decide (1 ≤ d.day) && decide (d.day ≤ daysInMonth d.year d.month) &&
  decide (0 ≤ d.hour) && decide (d.hour ≤ 23) &&
  decide (0 ≤ d.minute) && decide (d.minute ≤ 59) &&
  decide (0 ≤ d.second) && decide (d.second ≤ 59)

/-- Model of `chrono` `with_second`: `none` when the second is out of range. -/
def withSecond (d : DT) (s : Int) : Option DT :=
  if 0 ≤ s ∧ s ≤ 59 then some { d with second := s } else none

/-- Model of `chrono` `with_minute`. -/
def withMinute (d : DT) (m : Int) : Option DT :=
  if 0 ≤ m ∧ m ≤ 59 then some { d with minute := m } else none

/-- Model of `chrono` `with_hour`. -/
def withHour (d : DT) (h : Int) : Option DT :=
  if 0 ≤ h ∧ h ≤ 23 then some { d with hour := h } else none

/-- Model of `chrono` `with_day`: `none` when the resulting date is not valid in the
current month. -/
def withDay (d : DT) (dd : Int) : Option DT :=
  if 1 ≤ dd ∧ dd ≤ daysInMonth d.year d.month then some { d with day := dd }
  else none

/-- Model of `chrono` `with_month`: `none` when out of range or the current day does
not exist in the target month. -/
def withMonth (d : DT) (m : Int) : Option DT :=
  if 1 ≤ m ∧ m ≤ 12 ∧ d.day ≤ daysInMonth d.year m then
    some { d with month := m }
  else none

/-- Chronological strict order on datetimes of one timezone: lexicographic
on (year, month, day, hour, minute, second). -/
def dtLtB (a b : DT) : Bool :=
  if a.year ≠ b.year then decide (a.year < b.year)
  else if a.month ≠ b.month then decide (a.month < b.month)
  else if a.day ≠ b.day then decide (a.day < b.day)
  else if a.hour ≠ b.hour then decide (a.hour < b.hour)
  else if a.minute ≠ b.minute then decide (a.minute < b.minute)
  else decide (a.second < b.second)

def dtLeB (a b : DT) : Bool := !(dtLtB b a)

/-- Function `calculate_last_period`: floor each unit of `now` per its field, force
seconds to zero, assembling via the `with_* ... unwrap_or(now)` chain of the
source (each failed `with_*` falls back to the original `now`).  The
`with_second(0).unwrap()` cannot panic since 0 is always in range, so it is
modelled with the same fallback. -/
def calculate_last_period (cron : CronSpec) (now : DT) : DT :=
  let minute := cron.minute.fix now.minute
  let hour := cron.hour.fix now.hour
  let day := cron.day.fix now.day
  let month := cron.month.fix now.month
  let s0 := (withSecond now 0).getD now
  let s1 := (withMinute s0 minute).getD now
  let s2 := (withHour s1 hour).getD now
  let s3 := (withDay s2 day).getD now
  (withMonth s3 month).getD now

/-- Function `parse_field`: `*`, `*/step` with positive step, or an in-range value. -/
def parse_field (field : List Char) (lo hi : Int) : Except (List Char) CronField :=
  if field = ['*'] then .ok .Any
  else if field.take 2 = ['*', '/'] then
    match parseI32 (field.drop 2) with
    | none => .error "Invalid step value".data
    | some step =>
      if step ≤ 0 then .error "Step value must be positive".data
      else .ok (.Step step)
  else
    match parseI32 field with
    | none => .error "Invalid numeric value".data
    | some v =>
      if v < lo || v > hi then
        .error ("Value ".data ++ intToChars v ++ " out of range [".data ++
          intToChars lo ++ ", ".data ++ intToChars hi ++ "]".data)
      else .ok (.Value v)

/-- Function `parse_cron_spec`: named aliases, then exactly four whitespace-separated
fields with the calendar ranges of the source. -/
def parse_cron_spec (spec : List Char) : Except (List Char) CronSpec :=
  let spec :=
    if spec = "@hourly".data then "0 * * *".data
    else if spec = "@daily".data || spec = "@midnight".data then "0 0 * *".data
    else if spec = "@monthly".data then "0 0 1 *".data
    else if spec = "@annually".data || spec = "@yearly".data then "0 0 1 1".data
    else spec
  match splitWs spec with
  | [p0, p1, p2, p3] => do
    let minute ← parse_field p0 0 59
    let hour ← parse_field p1 0 23
    let day ← parse_field p2 1 31
    let month ← parse_field p3 1 12
    pure { minute := minute, hour := hour, day := day, month := month }
  | _ => .error "Invalid cron spec: expected 4 fields".data

/-- Function `should_run`: parse the spec and compare the floored period boundary
with the last run (`last_period > last_run`). -/
def should_run (spec : List Char) (last_run now : DT) : Except (List Char) Bool :=
  match parse_cron_spec spec with
  | .error e => .error e
  | .ok cron => .ok (dtLtB last_run (calculate_last_period cron now))

/-- A field that the parser could have produced for the range `[lo, hi]`. -/
def validFieldB (f : CronField) (lo hi : Int) : Bool :=
  match f with
  | .Any => true
  | .Value v => decide (lo ≤ v) && decide (v ≤ hi)
  | .Step s => decide (0 < s)

/-- A spec that the parser could have produced: every field validated
against its calendar range. -/
def validSpecB (c : CronSpec) : Bool :=
  validFieldB c.minute 0 59 && validFieldB c.hour 0 23 &&
  validFieldB c.day 1 31 && validFieldB c.month 1 12

/-- The field, when it is an `ExactValue`, does not exceed the unit `u`. -/
def valueAtMost (f : CronField) (u : Int) : Prop :=
  ∀ v, f = CronField.Value v → v ≤ u

/-- UNIX epoch, as the probe's timestamp decoding produces it (one fixed
timezone). -/
def epochDT : DT := ⟨1970, 1, 1, 0, 0, 0⟩

/-- The calendar date of `d` is strictly later than 1970-01-01. -/
def dateAfterEpochDayB (d : DT) : Bool :=
  decide (1970 < d.year) ||
  (decide (d.year = 1970) &&
    (decide (1 < d.month) || (decide (d.month = 1) && decide (1 < d.day))))

/-! Exclusivity guard (src/lock.rs)

`DateTime<Local>` at second precision is in one-to-one correspondence with
its UNIX timestamp, so the lock-file store is modelled directly on `Int`
timestamps; the file body is a `List Char`.
-/

/-- Timestamp of `chrono`'s minimum datetime: `DateTime::from_timestamp`
returns `None` below it.  Modelled from chrono. -/
def chronoMinTs : Int := -8334601228800

/-- Timestamp of `chrono`'s maximum datetime: `DateTime::from_timestamp`
returns `None` above it.  Modelled from chrono. -/
def chronoMaxTs : Int := 8210266876799

/-- Function `FileLock::write_timestamp`: truncate and write `time.timestamp()` in
decimal. -/
def write_timestamp (t : Int) : List Char := intToChars t

/-- Function `FileLock::read_timestamp`: `none` for an empty body, otherwise trim,
parse as `i64` and decode with `DateTime::from_timestamp`. -/
def read_timestamp (contents : List Char) : Except (List Char) (Option Int) :=
  if contents = [] then .ok none
  else
    match parseI64 (trimChars contents) with
    | none => .error "Failed to parse timestamp".data
    | some ts =>
      if chronoMinTs ≤ ts ∧ ts ≤ chronoMaxTs then .ok (some ts)
      else .error "Invalid timestamp".data

/-! Transaction client and update aggregator (src/packagekit.rs) -/

/-- Type `UpdateInfo` (src/packagekit.rs). -/
structure UpdateInfo where
  package_id : List Char
  name : List Char
  version : List Char
  is_security : Bool
deriving DecidableEq

/-- Function `parse_package_id`: split the identifier on `;`; field 0 is the name,
field 1 (or "unknown") the version. -/
def parse_package_id (package_id : List Char) (is_security : Bool) : Option UpdateInfo :=
  let parts := splitSemi package_id
  if parts = [] then none
  else
    parts.head?.bind fun name =>
      some { package_id := package_id, name := name,
             version := parts[1]?.getD "unknown".data, is_security := is_security }

/-- One `UpdateDetail` notification: the fields of the D-Bus signal. -/
structure UpdateDetailSignal where
  package_id : List Char
  updates : List (List Char)
  obsoletes : List (List Char)
  vendor_urls : List (List Char)
  bugzilla_urls : List (List Char)
  cve_urls : List (List Char)
  restart : Int
  update_text : List Char
  changelog : List Char
  state : Int
  issued : List Char
  updated : List Char

/-- The security classification the `update_detail` listener computes
(src/packagekit.rs 206-208). -/
def signalIsSecurity (s : UpdateDetailSignal) : Bool :=
  !s.cve_urls.isEmpty || containsSub s.update_text "CVE-".data ||
    containsSub s.changelog "CVE-".data

/-- Model of `HashMap::insert` on an association list: replace the binding if the
key is present, else append. -/
def mapInsert : List (List Char × Bool) → List Char → Bool → List (List Char × Bool)
  | [], k, v => [(k, v)]
  | (k0, v0) :: rest, k, v =>
    if k0 = k then (k, v) :: rest else (k0, v0) :: mapInsert rest k v

/-- Model of `HashMap::get` on an association list. -/
def mapGet? : List (List Char × Bool) → List Char → Option Bool
  | [], _ => none
  | (k0, v0) :: rest, k => if k0 = k then some v0 else mapGet? rest k

/-- Final state of the `update_detail` listener: the fold of
`HashMap::insert` over the delivered detail notifications
(src/packagekit.rs 202-216). -/
def detailMap (evs : List UpdateDetailSignal) : List (List Char × Bool) :=
  evs.foldl (fun acc e => mapInsert acc e.package_id (signalIsSecurity e)) []

/-- The classification §4.4 of the spec describes: the security flag of the
last detail notification delivered for `pid`, `false` when none arrived. -/
def specClassOf (evs : List UpdateDetailSignal) (pid : List Char) : Bool :=
  (evs.foldl
    (fun r e => if e.package_id = pid then some (signalIsSecurity e) else r)
    none).getD false

/-- Function `get_update_details` after its poll loop observed the finished flag:
one record per requested identifier, in request order, each classification
looked up in the listener map with default `false`
(src/packagekit.rs 235-246, including the early empty-input return). -/
def get_update_details (package_ids : List (List Char))
    (evs : List UpdateDetailSignal) : List UpdateInfo :=
  if package_ids = [] then []
  else
    let m := detailMap evs
    package_ids.filterMap fun pid =>
      parse_package_id pid ((mapGet? m pid).getD false)

/-- A notification observed by the apply phase's listeners. -/
inductive ApplySignal
  | finished (exit runtime : Int)
  | errorCode (code : Int) (details : List Char)

/-- Final listener state of the apply phase after the delivered signals:
the shared finished flag and the shared error slot (each error notification
overwrites the slot) (src/packagekit.rs 271-290). -/
def applyListenerState (evs : List ApplySignal) : Bool × Option (List Char) :=
  evs.foldl
    (fun st e =>
      match e with
      | .finished _ _ => (true, st.2)
      | .errorCode _ d => (st.1, some d))
    (false, none)

/-- Function `apply_updates` after the request was issued: the poll loop exits once
the finished flag is set, then the error slot decides the outcome
(src/packagekit.rs 249-307, including the early empty-input return). -/
def apply_updates (updates : List UpdateInfo) (evs : List ApplySignal) :
    Except (List Char) Unit :=
  if updates = [] then .ok ()
  else
    match (applyListenerState evs).2 with
    | some msg => .error ("Package update failed: ".data ++ msg)
    | none => .ok ()

/-! Verdict output and orchestration (src/nagios.rs, src/main.rs) -/

/-- Type `NagiosStatus` (src/nagios.rs). -/
inductive NagiosStatus
  | Ok
  | Warning
  | Critical
  | Unknown
deriving DecidableEq

/-- Function `NagiosStatus::exit_code`. -/
def NagiosStatus.exit_code : NagiosStatus → Int
  | .Ok => 0
  | .Warning => 1
  | .Critical => 2
  | .Unknown => 3

/-- Function `NagiosStatus::as_str`. -/
def NagiosStatus.as_str : NagiosStatus → List Char
  | .Ok => "OK".data
  | .Warning => "Warning".data
  | .Critical => "Critical".data
  | .Unknown => "Unknown".data

/-- Type `NagiosOutput` (src/nagios.rs). -/
structure NagiosOutput where
  status : NagiosStatus
  message : List Char
  perfdata : Option (List Char)
deriving DecidableEq

/-- Model of `impl Display for NagiosOutput`: the emitted verdict text. -/
def NagiosOutput.display (o : NagiosOutput) : List Char :=
  "UPDATE ".data ++ o.status.as_str ++ " - ".data ++ o.message ++
    (match o.perfdata with
     | some p => " | ".data ++ p
     | none => [])

/-- The threshold scoring of `run_update_check` (src/main.rs 193-199). -/
def scoreStatus (security_count warning_threshold critical_threshold : Nat) :
    NagiosStatus :=
  if security_count ≥ critical_threshold then .Critical
  else if security_count ≥ warning_threshold then .Warning
  else .Ok

/-- Single-quote character of the perfdata labels. -/
def sq : Char := Char.ofNat 39

/-- One line of the update listing (src/main.rs 153-161). -/
def updateLine (u : UpdateInfo) : List Char :=
  u.name ++ " ".data ++ u.version ++
    (if u.is_security then " (SECURITY)".data else []) ++ "\n".data

/-- The `details` text accumulated by `run_update_check`
(src/main.rs 151-168). -/
def detailsText (detailed : List UpdateInfo) (apply_all : Bool) : List Char :=
  "Security updates:\n".data ++
  (detailed.filter (fun u => u.is_security || apply_all)).foldl
    (fun acc u => acc ++ updateLine u) [] ++
  (if detailed.countP (fun u => u.is_security) = 0 ∧ apply_all = false then
    "(none)\n".data
  else [])

/-- The scoring-phase message (src/main.rs 203-206). -/
def scoringMessage (security total : Nat) (details : List Char) : List Char :=
  "Security-Update = ".data ++ natToChars security ++ " | ".data ++
  [sq] ++ "Total Update".data ++ [sq] ++ " = ".data ++ natToChars total ++
  "\n".data ++ details

/-- The scoring-phase perfdata (src/main.rs 207-210). -/
def perfLine (total security : Nat) : List Char :=
  [sq] ++ "Total Update".data ++ [sq] ++ "=".data ++ natToChars total ++
  " ".data ++ [sq] ++ "Security Update".data ++ [sq] ++ "=".data ++
  natToChars security

/-- The verdict `run_update_check` returns from the scoring step
(src/main.rs 132-211), for a non-empty update list that was neither
cancelled nor failed. -/
def run_update_check_scoring (detailed : List UpdateInfo) (apply_all : Bool)
    (warning critical : Nat) : NagiosOutput :=
  let total_count := detailed.length
  let security_count := detailed.countP (fun u => u.is_security)
  { status := scoreStatus security_count warning critical
    message := scoringMessage security_count total_count
      (detailsText detailed apply_all)
    perfdata := some (perfLine total_count security_count) }

/-- Outcome of the lock/schedule gate of `main`. -/
inductive LockPhaseOutcome
  | silentOk
  | reportExit (o : NagiosOutput) (code : Int)
  | failure (e : List Char)
  | proceed (writes_now : Bool)
deriving DecidableEq

/-- The lock/schedule gate of `main` (src/main.rs 44-77): decides, before
any service contact, whether this invocation is a silent successful no-op,
an emitted warning with exit code 1, a propagated error, or proceeds to
`run_update_check` (persisting `now` as the new last-run stamp when
`writes_now`). -/
def mainLockPhase (lock_configured : Bool) (cron_spec : Option (List Char))
    (acquired : Bool) (stamp : Except (List Char) (Option DT)) (now : DT) :
    LockPhaseOutcome :=
  if lock_configured then
    if !acquired then
      if cron_spec.isSome then .silentOk
      else .reportExit ⟨.Warning, "Failed to acquire lock file".data, none⟩ 1
    else
      match cron_spec with
      | none => .proceed false
      | some cs =>
        match stamp with
        | .error e => .failure e
        | .ok none => .proceed true
        | .ok (some last_run) =>
          match should_run cs last_run now with
          | .error e => .failure e
          | .ok false => .silentOk
          | .ok true => .proceed true
  else .proceed false

/-! Theorems -/

theorem dtLeB_of_pointwise {a b : DT} (hy : a.year = b.year) (hm : a.month ≤ b.month)
    (hd : a.day ≤ b.day) (hh : a.hour ≤ b.hour) (hmi : a.minute ≤ b.minute)
    (hs : a.second ≤ b.second) : dtLeB a b = true := by
  unfold dtLeB dtLtB
  split_ifs <;> simp_all

theorem calculate_last_period_le_aux (cron : CronSpec) (now : DT)
    (hm : cron.minute.fix now.minute ≤ now.minute)
    (hh : cron.hour.fix now.hour ≤ now.hour)
    (hd : cron.day.fix now.day ≤ now.day)
    (hmo : cron.month.fix now.month ≤ now.month)
    (hsec : 0 ≤ now.second) :
    dtLeB (calculate_last_period cron now) now = true := by
  unfold calculate_last_period
  simp only [withSecond, withMinute, withHour, withDay, withMonth]
  split_ifs <;> simp_all <;> (apply dtLeB_of_pointwise <;> simp <;> omega)

theorem fix_le {f : CronField} {lo hi u : Int} (hf : validFieldB f lo hi = true)
    (hu : 0 ≤ u) (hv : valueAtMost f u) : f.fix u ≤ u := by
  cases f with
  | Any => simp [CronField.fix]
  | Value v => simpa [CronField.fix] using hv v rfl
  | Step s =>
    simp only [CronField.fix]
    have := Int.tmod_nonneg (a := u) s hu
    omega

/-- C1 (amended): for a valid 4-field spec and a valid `now`, the candidate
period boundary computed by `calculate_last_period` is no later than `now`
provided each `ExactValue` field's value does not exceed the corresponding
unit of `now` — in particular for every spec whose fields are only
`Wildcard` or `StepFloor`.  (An `ExactValue` above the current unit yields
a boundary strictly later than `now`, see the counterexample.) -/
theorem C1_boundary_le_now (cron : CronSpec) (now : DT)
    (hnow : validDT now = true) (hspec : validSpecB cron = true)
    (h1 : valueAtMost cron.minute now.minute) (h2 : valueAtMost cron.hour now.hour)
    (h3 : valueAtMost cron.day now.day) (h4 : valueAtMost cron.month now.month) :
    dtLeB (calculate_last_period cron now) now = true := by
  simp only [validDT, Bool.and_eq_true, decide_eq_true_eq] at hnow
  simp only [validSpecB, Bool.and_eq_true] at hspec
  obtain ⟨⟨⟨hsa, hsb⟩, hsc⟩, hsd⟩ := hspec
  exact calculate_last_period_le_aux cron now
    (fix_le hsa (by omega) h1) (fix_le hsb (by omega) h2)
    (fix_le hsc (by omega) h3) (fix_le hsd (by omega) h4)
    (by omega)

/-- Witness for C1 at a concrete step-floor spec and time. -/
theorem C1_witness :
    dtLeB (calculate_last_period ⟨.Step 15, .Any, .Any, .Any⟩ ⟨2024, 5, 10, 8, 47, 30⟩)
      ⟨2024, 5, 10, 8, 47, 30⟩ = true :=
  C1_boundary_le_now _ _ (by decide) (by decide)
    (fun v h => nomatch h) (fun v h => nomatch h)
    (fun v h => nomatch h) (fun v h => nomatch h)

/-- C1 as stated is false: the valid spec `30 * * *` at 08:10 produces the
candidate boundary 08:30, strictly later than `now`. -/
theorem C1_counterexample :
    validSpecB ⟨.Value 30, .Any, .Any, .Any⟩ = true ∧
    validDT ⟨2024, 5, 10, 8, 10, 0⟩ = true ∧
    dtLtB ⟨2024, 5, 10, 8, 10, 0⟩
      (calculate_last_period ⟨.Value 30, .Any, .Any, .Any⟩ ⟨2024, 5, 10, 8, 10, 0⟩) = true :=
  ⟨rfl, rfl, rfl⟩

theorem parse_daily : parse_cron_spec "@daily".data =
    .ok ⟨.Value 0, .Value 0, .Any, .Any⟩ := rfl

/-- C4 (amended): with `last_run` the epoch and the `@daily` schedule,
`should_run` returns true exactly for `now` whose calendar date is strictly
later than the epoch's day 1970-01-01 — not for every `now` strictly after
the epoch (see the counterexample on the epoch's own day). -/
theorem C4_daily_from_epoch (now : DT) (hnow : validDT now = true) :
    should_run "@daily".data epochDT now = .ok (dateAfterEpochDayB now) := by
  simp only [validDT, Bool.and_eq_true, decide_eq_true_eq] at hnow
  rw [should_run, parse_daily]
  unfold calculate_last_period
  simp only [CronField.fix, withSecond, withMinute, withHour, withDay, withMonth]
  split_ifs <;> simp_all <;>
    (unfold dtLtB dateAfterEpochDayB epochDT; split_ifs <;> simp_all <;> omega)

/-- Witness for C4 on the day after the epoch. -/
theorem C4_witness :
    should_run "@daily".data epochDT ⟨1970, 1, 2, 3, 4, 5⟩ = .ok true :=
  C4_daily_from_epoch ⟨1970, 1, 2, 3, 4, 5⟩ (by decide)

/-- C4 as stated is false: noon of 1970-01-01 is strictly after the epoch,
yet `should_run` is false there. -/
theorem C4_counterexample :
    validDT ⟨1970, 1, 1, 12, 0, 0⟩ = true ∧
    dtLtB epochDT ⟨1970, 1, 1, 12, 0, 0⟩ = true ∧
    should_run "@daily".data epochDT ⟨1970, 1, 1, 12, 0, 0⟩ = .ok false :=
  ⟨rfl, rfl, rfl⟩

/-- C6: severity is Critical iff the security count reaches the critical
threshold, else Warning iff it reaches the warning threshold, else OK; a
count meeting both thresholds (10 with critical 10, warning 5) is Critical. -/
theorem C6_threshold_scoring :
    (∀ c w k : Nat,
      (scoreStatus c w k = .Critical ↔ k ≤ c) ∧
      (scoreStatus c w k = .Warning ↔ c < k ∧ w ≤ c) ∧
      (scoreStatus c w k = .Ok ↔ c < k ∧ c < w)) ∧
    scoreStatus 10 5 10 = .Critical := by
  refine ⟨fun c w k => ⟨?_, ?_, ?_⟩, by decide⟩ <;>
    (unfold scoreStatus; split_ifs <;> simp_all <;> omega)

/-- C7 as stated is false: the scoring verdict's message embeds newline
characters, so the emitted verdict is not a single line. -/
theorem C7_counterexample :
    (NagiosOutput.display
      (run_update_check_scoring [⟨"a;1.0".data, "a".data, "1.0".data, true⟩]
        false 10 20)).contains '\n' = true := by decide

/-- C7 (amended): every verdict is emitted as
`UPDATE <SEVERITY> - <message>[ | <perfdata>]` with severity one of
OK/Warning/Critical/Unknown and exit codes 0/1/2/3 respectively; the
emission is a single line only when the message itself has no newline (the
scoring verdict's message does, see the counterexample). -/
theorem C7_output_protocol :
    (∀ st msg, NagiosOutput.display ⟨st, msg, none⟩ =
      "UPDATE ".data ++ st.as_str ++ " - ".data ++ msg) ∧
    (∀ st msg p, NagiosOutput.display ⟨st, msg, some p⟩ =
      "UPDATE ".data ++ st.as_str ++ " - ".data ++ msg ++ " | ".data ++ p) ∧
    (∀ st : NagiosStatus, st.as_str = "OK".data ∨ st.as_str = "Warning".data ∨
      st.as_str = "Critical".data ∨ st.as_str = "Unknown".data) ∧
    NagiosStatus.exit_code .Ok = 0 ∧ NagiosStatus.exit_code .Warning = 1 ∧
    NagiosStatus.exit_code .Critical = 2 ∧ NagiosStatus.exit_code .Unknown = 3 := by
  refine ⟨fun st msg => by simp [NagiosOutput.display],
    fun st msg p => by simp [NagiosOutput.display], fun st => ?_, rfl, rfl, rfl, rfl⟩
  cases st <;> simp [NagiosStatus.as_str]

end CheckUpdates

namespace CheckUpdates

theorem splitSemi_ne_nil (cs : List Char) : splitSemi cs ≠ [] := by
  induction cs with
  | nil => simp [splitSemi]
  | cons c rest ih =>
    simp only [splitSemi]
    split_ifs
    · simp
    · rcases h : splitSemi rest with _ | ⟨a, b⟩ <;> simp [h]

theorem parse_package_id_eq (pid : List Char) (sec : Bool) :
    parse_package_id pid sec =
      some ⟨pid, ((splitSemi pid).head?).getD [],
        (splitSemi pid)[1]?.getD "unknown".data, sec⟩ := by
  obtain ⟨h, t, hsplit⟩ := List.exists_cons_of_ne_nil (splitSemi_ne_nil pid)
  simp [parse_package_id, hsplit]

/-- C10: `parse_package_id` returns `Some` for every input — splitting on
`;` always yields at least one field, so the skip branch is unreachable —
and the empty identifier yields an empty name and version "unknown". -/
theorem C10_parse_package_id_total :
    (∀ (pid : List Char) (sec : Bool), parse_package_id pid sec =
      some ⟨pid, ((splitSemi pid).head?).getD [],
        (splitSemi pid)[1]?.getD "unknown".data, sec⟩) ∧
    (∀ sec : Bool, parse_package_id [] sec =
      some ⟨[], [], "unknown".data, sec⟩) :=
  ⟨parse_package_id_eq, fun _ => rfl⟩

/-- C2: when the shared error slot is populated and a finished notification
was also received, the apply phase fails with the service-supplied detail
text in the message — error takes precedence over completion. -/
theorem C2_error_precedence (updates : List UpdateInfo) (evs : List ApplySignal)
    (msg : List Char) (hne : updates ≠ [])
    (hfin : (applyListenerState evs).1 = true)
    (herr : (applyListenerState evs).2 = some msg) :
    apply_updates updates evs = .error ("Package update failed: ".data ++ msg) := by
  unfold apply_updates
  simp [hne, herr]

/-- Witness for C2: an error notification delivered after the finished
notification still fails the phase. -/
theorem C2_witness :
    apply_updates [⟨"a;1.0".data, "a".data, "1.0".data, false⟩]
      [.finished 1 500, .errorCode 2 "dependency conflict".data] =
      .error ("Package update failed: ".data ++ "dependency conflict".data) :=
  C2_error_precedence _ _ _ (by simp) (by decide) (by decide)

/-- C8: on lock contention, scheduled mode (cron spec configured) exits
silently with success before any service contact, and interactive mode
emits a Warning verdict and exits with code 1. -/
theorem C8_lock_contention (cs : List Char)
    (stamp : Except (List Char) (Option DT)) (now : DT) :
    mainLockPhase true (some cs) false stamp now = .silentOk ∧
    mainLockPhase true none false stamp now =
      .reportExit ⟨.Warning, "Failed to acquire lock file".data, none⟩ 1 :=
  ⟨rfl, rfl⟩

/-- C9: with an empty lock file (no persisted last-run stamp), the schedule
is never consulted — for every configured cron spec (even an unparseable
one) and every `now`, the run proceeds and persists `now`. -/
theorem C9_empty_stamp_runs (cs : List Char) (now : DT) :
    mainLockPhase true (some cs) true (.ok none) now = .proceed true :=
  rfl

theorem mapGet?_mapInsert (m : List (List Char × Bool)) (k k0 : List Char) (v : Bool) :
    mapGet? (mapInsert m k v) k0 = if k = k0 then some v else mapGet? m k0 := by
  induction m with
  | nil => simp [mapInsert, mapGet?]
  | cons p rest ih =>
    obtain ⟨ka, va⟩ := p
    simp only [mapInsert]
    by_cases hk : ka = k
    · subst hk
      simp only [if_pos rfl, mapGet?]
      by_cases h0 : ka = k0 <;> simp [h0]
    · simp only [if_neg hk, mapGet?, ih]
      by_cases h0 : ka = k0 <;> by_cases h1 : k = k0 <;> simp_all

theorem detail_fold_get (evs : List UpdateDetailSignal) :
    ∀ (acc : List (List Char × Bool)) (k : List Char),
    mapGet? (evs.foldl (fun a e => mapInsert a e.package_id (signalIsSecurity e)) acc) k =
      evs.foldl (fun r e => if e.package_id = k then some (signalIsSecurity e) else r)
        (mapGet? acc k) := by
  induction evs with
  | nil => intro acc k; rfl
  | cons e rest ih =>
    intro acc k
    simp only [List.foldl_cons]
    rw [ih, mapGet?_mapInsert]

theorem detailMap_class (evs : List UpdateDetailSignal) (pid : List Char) :
    (mapGet? (detailMap evs) pid).getD false = specClassOf evs pid := by
  unfold detailMap specClassOf
  rw [detail_fold_get]
  rfl

theorem aggregated_records (evs : List UpdateDetailSignal) (ids : List (List Char)) :
    ids.filterMap (fun pid =>
        parse_package_id pid ((mapGet? (detailMap evs) pid).getD false)) =
      ids.map fun pid =>
        ⟨pid, ((splitSemi pid).head?).getD [],
          (splitSemi pid)[1]?.getD "unknown".data, specClassOf evs pid⟩ :=
  List.filterMap_eq_map_iff_forall_eq_some.mpr
    (fun pid _ => by rw [detailMap_class, parse_package_id_eq])

/-- C3: the aggregator produces exactly one update record per enumerated
identifier, preserving enumerate order, the security flag coming from the
identifier's last detail classification and defaulting to false when no
detail notification arrived; in particular the spec's two-identifier
example. -/
theorem C3_aggregation :
    (∀ (ids : List (List Char)) (evs : List UpdateDetailSignal),
      get_update_details ids evs =
        ids.map fun pid =>
          ⟨pid, ((splitSemi pid).head?).getD [],
            (splitSemi pid)[1]?.getD "unknown".data, specClassOf evs pid⟩) ∧
    get_update_details ["a;1.0".data, "b;2.0".data]
      [⟨"b;2.0".data, [], [], [], [], ["CVE-2024-1234".data], 0, [], [], 0, [], []⟩] =
      [⟨"a;1.0".data, "a".data, "1.0".data, false⟩,
       ⟨"b;2.0".data, "b".data, "2.0".data, true⟩] := by
  constructor
  · intro ids evs
    unfold get_update_details
    split_ifs with h
    · simp [h]
    · exact aggregated_records evs ids
  · rfl

end CheckUpdates

namespace CheckUpdates

theorem digitChar_toNat {d : Nat} (h : d < 10) : (digitChar d).toNat = 48 + d := by
  interval_cases d <;> rfl

theorem natDigitsRev_digits {fuel n : Nat} :
    ∀ c ∈ natDigitsRev fuel n, 48 ≤ c.toNat ∧ c.toNat ≤ 57 := by
  induction fuel generalizing n with
  | zero => intro c hc; simp [natDigitsRev] at hc
  | succ f ih =>
    intro c hc
    simp only [natDigitsRev] at hc
    split_ifs at hc with h10
    · simp only [List.mem_singleton] at hc
      subst hc
      rw [digitChar_toNat h10]
      omega
    · rcases List.mem_cons.mp hc with h1 | h1
      · subst h1
        rw [digitChar_toNat (Nat.mod_lt _ (by omega))]
        have := Nat.mod_lt n (y := 10) (by omega)
        omega
      · exact ih c h1

theorem natToChars_digits (n : Nat) :
    ∀ c ∈ natToChars n, 48 ≤ c.toNat ∧ c.toNat ≤ 57 := by
  intro c hc
  unfold natToChars at hc
  exact natDigitsRev_digits c (List.mem_reverse.mp hc)

theorem natDigitsRev_ne_nil {fuel n : Nat} (h : n < fuel) :
    natDigitsRev fuel n ≠ [] := by
  cases fuel with
  | zero => omega
  | succ f =>
    simp only [natDigitsRev]
    split_ifs <;> simp

theorem natToChars_ne_nil (n : Nat) : natToChars n ≠ [] := by
  unfold natToChars
  simp [natDigitsRev_ne_nil (Nat.lt_succ_self n)]

theorem parseNatAux_append (xs ys : List Char) :
    ∀ a, parseNatAux (xs ++ ys) a =
      (parseNatAux xs a).bind fun b => parseNatAux ys b := by
  induction xs with
  | nil => intro a; rfl
  | cons c t ih =>
    intro a
    rcases h : digitVal? c with _ | d <;>
      simp [parseNatAux, List.cons_append, h, ih]

theorem parseNatAux_natDigitsRev {fuel : Nat} :
    ∀ n a, n < fuel →
      parseNatAux (natDigitsRev fuel n).reverse a =
        some (a * 10 ^ (natDigitsRev fuel n).length + n) := by
  induction fuel with
  | zero => intro n a h; omega
  | succ f ih =>
    intro n a h
    by_cases h10 : n < 10
    · simp only [natDigitsRev, if_pos h10, List.reverse_singleton,
        List.length_singleton]
      have hd : digitVal? (digitChar n) = some n := by
        unfold digitVal?
        rw [if_pos (by rw [digitChar_toNat h10]; omega), digitChar_toNat h10]
        congr 1
        omega
      simp [parseNatAux, hd]
    · simp only [natDigitsRev, if_neg h10, List.reverse_cons, List.length_cons]
      rw [parseNatAux_append, ih (n / 10) a (by omega)]
      have hm : n % 10 < 10 := Nat.mod_lt _ (by omega)
      have hd : digitVal? (digitChar (n % 10)) = some (n % 10) := by
        unfold digitVal?
        rw [if_pos (by rw [digitChar_toNat hm]; omega), digitChar_toNat hm]
        congr 1
        omega
      simp only [Option.some_bind]
      simp [parseNatAux, hd]
      rw [pow_succ, ← mul_assoc]
      generalize a * 10 ^ (natDigitsRev f (n / 10)).length = A
      omega

theorem parseNatChars_natToChars (n : Nat) :
    parseNatChars (natToChars n) = some n := by
  unfold parseNatChars natToChars
  rw [if_neg (by simp [natDigitsRev_ne_nil (Nat.lt_succ_self n)]),
    parseNatAux_natDigitsRev n 0 (Nat.lt_succ_self n)]
  simp

end CheckUpdates

namespace CheckUpdates

theorem natToChars_head_digit (n : Nat) {c : Char}
    (hc : (natToChars n).head? = some c) : 48 ≤ c.toNat ∧ c.toNat ≤ 57 := by
  have hm : c ∈ natToChars n := by
    cases h : natToChars n with
    | nil => rw [h] at hc; simp at hc
    | cons a t =>
      rw [h] at hc
      simp only [List.head?_cons, Option.some.injEq] at hc
      subst hc
      simp [h]
  exact natToChars_digits n c hm

theorem parseI64_natToChars {n : Nat} (hn : n < 2 ^ 63) :
    parseI64 (natToChars n) = some (n : Int) := by
  obtain ⟨c, t, hct⟩ := List.exists_cons_of_ne_nil (natToChars_ne_nil n)
  have hcd : 48 ≤ c.toNat ∧ c.toNat ≤ 57 :=
    natToChars_head_digit n (by rw [hct]; rfl)
  have h1 : ¬(natToChars n).head? = some '-' := by
    rw [hct]
    simp only [List.head?_cons, Option.some.injEq]
    intro h
    rw [h] at hcd
    exact absurd hcd (by decide)
  have h2 : ¬(natToChars n).head? = some '+' := by
    rw [hct]
    simp only [List.head?_cons, Option.some.injEq]
    intro h
    rw [h] at hcd
    exact absurd hcd (by decide)
  unfold parseI64
  rw [if_neg h1, if_neg h2, parseNatChars_natToChars]
  simp only [Option.some_bind]
  rw [if_pos hn]

theorem parseI64_intToChars {t : Int} (h1 : -(2 ^ 63) ≤ t) (h2 : t < 2 ^ 63) :
    parseI64 (intToChars t) = some t := by
  unfold intToChars
  split_ifs with hneg
  · have hb : t.natAbs ≤ 2 ^ 63 := by omega
    unfold parseI64
    simp only [List.head?_cons, List.tail_cons, if_pos rfl]
    rw [parseNatChars_natToChars]
    simp only [Option.some_bind, if_pos hb]
    have habs : ((t.natAbs : Int)) = -t := by omega
    rw [habs, neg_neg]
    simp
  · have hnn : (0 : Int) ≤ t := by omega
    have hlt : t.toNat < 2 ^ 63 := by omega
    rw [parseI64_natToChars hlt, Int.toNat_of_nonneg hnn]

theorem dropWhile_eq_self_of_none {p : Char → Bool} {l : List Char}
    (h : ∀ c ∈ l, p c = false) : l.dropWhile p = l := by
  cases l with
  | nil => rfl
  | cons c t => simp [List.dropWhile_cons, h c (List.mem_cons_self c t)]

theorem trimChars_eq_self {l : List Char} (h : ∀ c ∈ l, isWsChar c = false) :
    trimChars l = l := by
  unfold trimChars
  rw [dropWhile_eq_self_of_none h, dropWhile_eq_self_of_none, List.reverse_reverse]
  intro c hc
  exact h c (List.mem_reverse.mp hc)

theorem isWsChar_false_of_digit {c : Char} (h48 : 48 ≤ c.toNat)
    (h57 : c.toNat ≤ 57) : isWsChar c = false := by
  simp only [isWsChar, Bool.or_eq_false_iff, Bool.and_eq_false_iff,
    decide_eq_false_iff_not]
  omega

theorem intToChars_not_ws (t : Int) : ∀ c ∈ intToChars t, isWsChar c = false := by
  intro c hc
  unfold intToChars at hc
  split_ifs at hc
  · rcases List.mem_cons.mp hc with h1 | h1
    · subst h1; rfl
    · obtain ⟨ha, hb⟩ := natToChars_digits _ c h1
      exact isWsChar_false_of_digit ha hb
  · obtain ⟨ha, hb⟩ := natToChars_digits _ c hc
    exact isWsChar_false_of_digit ha hb

theorem intToChars_ne_nil (t : Int) : intToChars t ≠ [] := by
  unfold intToChars
  split_ifs
  · simp
  · exact natToChars_ne_nil _

/-- C5: an empty lock file reads back as no timestamp, and writing any
representable timestamp then reading returns exactly that timestamp
(second precision). -/
theorem C5_lockfile_roundtrip :
    read_timestamp [] = .ok none ∧
    ∀ t : Int, chronoMinTs ≤ t → t ≤ chronoMaxTs →
      read_timestamp (write_timestamp t) = .ok (some t) := by
  refine ⟨rfl, fun t h1 h2 => ?_⟩
  unfold read_timestamp write_timestamp
  rw [if_neg (intToChars_ne_nil t), trimChars_eq_self (intToChars_not_ws t),
    parseI64_intToChars (by unfold chronoMinTs at h1; omega)
      (by unfold chronoMaxTs at h2; omega)]
  simp [h1, h2]

/-- Witness for C5 at a concrete recent timestamp. -/
theorem C5_witness :
    read_timestamp (write_timestamp 1700000000) = .ok (some 1700000000) :=
  C5_lockfile_roundtrip.2 1700000000 (by decide) (by decide)

end CheckUpdates
